import Mathlib

/-!
Shallow embedding of the conversation-control core of the universal-scraper
repository (agentscraper.py, tools/firecrawl.py, tools/jinaai.py).

External collaborators (the OpenAI chat endpoint, the tiktoken tokenizer,
the JSON decoder for model-emitted tool arguments, the tool backends and the
HTTP layer) are modelled as explicit oracle parameters; everything the
repository itself computes is translated directly from the Python source.
Python exceptions are modelled with `Except`: a `.error` value corresponds to
an exception propagating out of the translated function.
-/

namespace UniversalScraper

/-- Python exceptions that the translated code can raise. -/
inductive PyErr where
  | indexError
  | keyError
  | jsonError
  | nameError
  | retryError
  | toolError
deriving DecidableEq, Repr

/-- A model-issued tool call: `tool_call.id`, `tool_call.function.name`
(field `fname` here) and the raw `tool_call.function.arguments` text. -/
structure ToolCall where
  id : String
  fname : String
  arguments : String
deriving DecidableEq, Repr

/-- A conversation message dict. Python dicts built by agentscraper.py carry
`role`, `content` (possibly None), optionally `tool_calls` (modelled with `[]`
for None/absent), and on tool messages `tool_call_id` and `name`. -/
structure Message where
  role : String
  content : Option String
  tool_calls : List ToolCall
  tool_call_id : Option String
  name : Option String
deriving DecidableEq, Repr

def userMsg (s : String) : Message := ⟨"user", some s, [], none, none⟩

def systemMsg (s : String) : Message := ⟨"system", some s, [], none, none⟩

def assistantMsg (c : Option String) (tcs : List ToolCall) : Message :=
  ⟨"assistant", c, tcs, none, none⟩

def toolMsg (id nm : String) (c : Option String) : Message :=
  ⟨"tool", c, [], some id, some nm⟩

/-- Rendering of a possibly-absent content value inside a Python f-string:
`None` prints as the text "None". -/
def contentStr : Option String → String
  | none => "None"
  | some s => s

/-- One choice of a chat response: `choices[0].message.content`,
`choices[0].message.tool_calls` and `choices[0].finish_reason`. -/
structure Choice where
  content : Option String
  tool_calls : List ToolCall
  finish_reason : String
deriving DecidableEq, Repr

/-- Record of one call to `chat_request`: the messages, the tool definitions
(modelled by the list of declared tool names, `none` when `tools=None`), and
the tool choice argument. -/
structure ChatReq where
  messages : List Message
  tool_definitions : Option (List String)
  tool_choice : Option String
deriving DecidableEq, Repr

/-- Tool names declared by `AgentScrapper.scrape_tools()`. -/
def scrape_tools_names : List String := ["update_data", "scrape"]

/-- Tool names declared by `AgentScrapper.search_tools()`. -/
def search_tools_names : List String := ["update_data", "search"]

/-- Keys of the dispatch dict returned by `AgentScrapper.get_tools_list()`. -/
def get_tools_list : List String := ["scrape", "search", "update_data"]

/-- Truthiness of a dispatch-table entry in `if tool_to_call:`. The values of
the dict are bound methods, which are always truthy in Python, so this test
never takes the else branch once the dict subscript has succeeded. -/
def toolTruthy (_t : String) : Bool := true

/-- Body of `AgentScrapper.chat_request` for one attempt. `call` is the
outcome of `self.openai.chat.completions.create(...)`. On success the
response is returned. On failure the except handler evaluates an f-string
that reads the local variable `response`, which was never assigned because
`create` raised, so the handler itself raises UnboundLocalError (a NameError)
and the `return None` line below it is unreachable. -/
def chat_request_body {α : Type} (call : Except Unit α) : Except PyErr (Option α) :=
  match call with
  | .ok r => .ok (some r)
  | .error _ => .error .nameError

/-- `AgentScrapper.chat_request` under its tenacity decorator
`retry(wait=wait_random_exponential(multiplier=1, max=40), stop=stop_after_attempt(3))`:
the body is attempted up to 3 times (any exception triggers a retry), and
after the third failing attempt tenacity raises RetryError. `provider n` is
the outcome of the underlying `create` call on attempt `n`. The second
component counts the calls made to the provider. -/
def chat_request {α : Type} (provider : Nat → Except Unit α) :
    Except PyErr (Option α) × Nat :=
  match chat_request_body (provider 0) with
  | .ok r => (.ok r, 1)
  | .error _ =>
    match chat_request_body (provider 1) with
    | .ok r => (.ok r, 2)
    | .error _ =>
      match chat_request_body (provider 2) with
      | .ok r => (.ok r, 3)
      | .error _ => (.error .retryError, 3)

/-- Text inserted by `optimise_messages` between the original system prompt
and the generated summary. -/
def summarySep : String := "; Here is a summary of past actions taken so far: "

/-- `AgentScrapper.optimise_messages`. `tok` models
`len(encoding.encode(str(messages)))` (tiktoken, with the gpt-3.5-turbo
fallback for non-gpt models folded into the oracle); `summarize` models the
summarization chat completion issued on `early_messages`, `.error` meaning
the request raised. Reading `messages[0]["content"]` raises IndexError on an
empty history. `latest_messages` is `messages[-12:]`;
`early_messages` is `messages[:messages.index(latest_messages[0])]`. -/
def optimise_messages (tok : List Message → Nat)
    (summarize : List Message → Except Unit String)
    (messages : List Message) : Except PyErr (List Message) :=
  match messages.head? with
  | none => .error .indexError
  | some m0 =>
    if 24 < messages.length ∨ 10000 < tok messages then
      match (messages.drop (messages.length - 12)).head? with
      | none => .error .indexError
      | some l0 =>
        match summarize (messages.take (messages.indexOf l0)) with
        | .error _ => .ok messages
        | .ok summary =>
          .ok (systemMsg (contentStr m0.content ++ summarySep ++ summary)
                :: messages.drop (messages.length - 12))
    else
      .ok messages

/-- Oracles standing for the external collaborators used inside
`AgentScrapper.run`: the tokenizer, the summarizer, `json.loads` on
tool-call argument text (`.error` = malformed payload raising), and the
execution of a dispatched tool on its decoded arguments (`.error` = the tool
itself raised; `.ok c` = the tool returned content `c`, possibly None). -/
structure RunEnv where
  tok : List Message → Nat
  summarize : List Message → Except Unit String
  parse : String → Except Unit String
  tools : String → String → Except Unit (Option String)

/-- Outcome of the `for tool_call in tool_calls:` loop body. -/
inductive ToolsOut where
  | cont (msgs : List Message)
  | retNone
  | raised (e : PyErr)
deriving Repr

/-- The tool-dispatch loop of `AgentScrapper.run`. For each call:
`json.loads` the arguments (raising on malformed), then
`tool_list[tool_name]` — a dict subscript that raises KeyError when the name
is not a key; only then the truthiness test `if tool_to_call:` is reached,
and since bound methods are truthy the `else: return None` branch
(`retNone`) is dead code. On success a tool message is appended. -/
def processToolCalls (env : RunEnv) (msgs : List Message) :
    List ToolCall → ToolsOut
  | [] => .cont msgs
  | tc :: rest =>
    match env.parse tc.arguments with
    | .error _ => .raised .jsonError
    | .ok args =>
      if tc.fname ∈ get_tools_list then
        if toolTruthy tc.fname then
          match env.tools tc.fname args with
          | .error _ => .raised .toolError
          | .ok result =>
            processToolCalls env (msgs ++ [toolMsg tc.id tc.fname result]) rest
        else
          .retNone
      else
        .raised .keyError

/-- Result of a run: `ok v` models `return v` (v possibly None), `exn e`
models an exception propagating out of `run`, and `outOfScript` marks the
point where the scripted chat oracle has no further responses (the loop
would issue another request). -/
inductive RunResult where
  | ok (v : Option String)
  | exn (e : PyErr)
  | outOfScript (msgs : List Message)
deriving DecidableEq, Repr

/-- The `while state == "running":` loop of `AgentScrapper.run`. `script`
scripts the successive outcomes of `chat_request` (`none` = the documented
failure signal, `some c` = a response whose first choice is `c`). Returns
the run result together with the trace of chat requests issued, each
recording the history, tool definitions and tool choice passed. On a chat
failure the loop finishes and `run` returns `messages[-1]["content"]`; on a
stop finish reason the history is still compacted and the content of its
last message is returned. -/
def runAux (env : RunEnv) (td : Option (List String)) :
    List (Option Choice) → List Message → RunResult × List ChatReq
  | [], msgs => (.outOfScript msgs, [])
  | resp :: rest, msgs =>
    match resp with
    | none =>
      match msgs.getLast? with
      | none => (.exn .indexError, [⟨msgs, td, none⟩])
      | some m => (.ok m.content, [⟨msgs, td, none⟩])
    | some c =>
      match (if c.finish_reason = "tool_calls"
             then processToolCalls env (msgs ++ [assistantMsg c.content c.tool_calls]) c.tool_calls
             else .cont (msgs ++ [assistantMsg c.content c.tool_calls])) with
      | .raised e => (.exn e, [⟨msgs, td, none⟩])
      | .retNone => (.ok none, [⟨msgs, td, none⟩])
      | .cont msgs2 =>
        match optimise_messages env.tok env.summarize msgs2 with
        | .error e => (.exn e, [⟨msgs, td, none⟩])
        | .ok msgs3 =>
          if c.finish_reason = "stop" then
            match msgs3.getLast? with
            | none => (.exn .indexError, [⟨msgs, td, none⟩])
            | some m => (.ok m.content, [⟨msgs, td, none⟩])
          else
            let out := runAux env td rest msgs3
            (out.1, ⟨msgs, td, none⟩ :: out.2)

/-- Suffix the plan-first branch appends to the seed prompt. -/
def planSuffix : String := " Let\x27s think step by step, make a plan first"

/-- `AgentScrapper.run`. In plan mode one preliminary chat request is issued
on `[user: system_prompt + " " + prompt + planSuffix]` carrying the same
`tool_definitions` as the main loop; if it fails, `run` returns None,
otherwise the working history is re-seeded as
`[user: system_prompt + " " + prompt, assistant: plan text]` before the loop
starts. Without plan mode the loop starts from
`[user: system_prompt + " " + prompt]`. -/
def run (env : RunEnv) (td : Option (List String)) (script : List (Option Choice))
    (prompt system_prompt : String) (plan : Bool) : RunResult × List ChatReq :=
  if plan then
    match script with
    | [] => (.outOfScript [], [])
    | resp :: rest =>
      match resp with
      | none => (.ok none, [⟨[userMsg (system_prompt ++ " " ++ prompt ++ planSuffix)], td, none⟩])
      | some c =>
        let out := runAux env td rest
          [userMsg (system_prompt ++ " " ++ prompt), ⟨"assistant", c.content, [], none, none⟩]
        (out.1, ⟨[userMsg (system_prompt ++ " " ++ prompt ++ planSuffix)], td, none⟩ :: out.2)
  else
    runAux env td script [userMsg (system_prompt ++ " " ++ prompt)]

namespace JinaAiTools

/-- `JinaAiTools.scrape`: `requests.get("https://r.jina.ai/" + url)` with no
try/except, so a raising `http` call (connection error, timeout) propagates
to the caller. On success the url is appended to `links_scrapped` and
`response.text` is returned. -/
def scrape (http : String → Except Unit String) (links_scrapped : List String)
    (url : String) : Except Unit (String × List String) :=
  match http ("https://r.jina.ai/" ++ url) with
  | .error e => .error e
  | .ok text => .ok (text, links_scrapped ++ [url])

end JinaAiTools

/-- A fact-store entry of `FireCrawlTools.data_points`. -/
structure DataPoint where
  name : String
  value : Option String
  reference : Option String
deriving DecidableEq, Repr

/-- An input record of `update_data`, shaped
`{"name": ..., "value": ..., "reference": ...}`. -/
structure DataRecord where
  name : String
  value : String
  reference : String
deriving DecidableEq, Repr

/-- Python `str` of one record dict, as interpolated by the confirmation
f-string. -/
def pyStrRecord (r : DataRecord) : String :=
  "\x7b\x27name\x27: \x27" ++ r.name ++ "\x27, \x27value\x27: \x27" ++ r.value ++
    "\x27, \x27reference\x27: \x27" ++ r.reference ++ "\x27\x7d"

/-- Python `str` of the record list. -/
def pyStrRecords (rs : List DataRecord) : String :=
  "[" ++ String.intercalate ", " (rs.map pyStrRecord) ++ "]"

namespace FireCrawlTools

/-- Effect of one input record on one fact-store entry: the inner
`for obj in self.data_points:` loop body of `update_data`. -/
def applyRecord1 (dp : DataPoint) (r : DataRecord) : DataPoint :=
  if dp.name = r.name then ⟨dp.name, some r.value, some r.reference⟩ else dp

/-- Effect of one input record on the whole fact store. -/
def applyRecord (dps : List DataPoint) (r : DataRecord) : List DataPoint :=
  dps.map (applyRecord1 · r)

/-- `FireCrawlTools.update_data`: applies each record in order to every
matching entry and returns the new store together with the confirmation
string `f"updated data: {data_to_update}"`. -/
def update_data (dps : List DataPoint) (data_to_update : List DataRecord) :
    List DataPoint × String :=
  (data_to_update.foldl applyRecord dps,
   "updated data: " ++ pyStrRecords data_to_update)

/-- `FireCrawlTools.get_data_points_to_search`: names of the entries whose
value is still unset. -/
def get_data_points_to_search (dps : List DataPoint) : List String :=
  (dps.filter fun obj => obj.value = none).map DataPoint.name

end FireCrawlTools

/-! Helper lemmas shared by several claim theorems. -/

theorem drop_ne_nil_of_ne_nil (msgs : List Message) (h : msgs ≠ []) :
    msgs.drop (msgs.length - 12) ≠ [] := by
  have hlen : 0 < msgs.length := List.length_pos.mpr h
  have hlt : msgs.length - 12 < msgs.length := Nat.sub_lt hlen (by norm_num)
  have hpos : 0 < (msgs.drop (msgs.length - 12)).length := by
    rw [List.length_drop]; omega
  exact List.ne_nil_of_length_pos hpos

theorem getLast?_drop_self (msgs : List Message) (h : msgs ≠ []) :
    (msgs.drop (msgs.length - 12)).getLast? = msgs.getLast? := by
  conv_rhs => rw [← List.take_append_drop (msgs.length - 12) msgs]
  rw [List.getLast?_append_of_ne_nil _ (drop_ne_nil_of_ne_nil msgs h)]

/-- Compaction of a non-empty history never raises, and preserves the last
message of the history. -/
theorem optimise_messages_getLast (tok : List Message → Nat)
    (summarize : List Message → Except Unit String)
    (msgs : List Message) (h : msgs ≠ []) :
    ∃ msgs', optimise_messages tok summarize msgs = .ok msgs' ∧
      msgs'.getLast? = msgs.getLast? ∧ msgs' ≠ [] := by
  obtain ⟨m0, tl, rfl⟩ := List.exists_cons_of_ne_nil h
  obtain ⟨l0, ls, hdrop⟩ :=
    List.exists_cons_of_ne_nil (drop_ne_nil_of_ne_nil (m0 :: tl) h)
  by_cases htrig : 24 < (m0 :: tl).length ∨ 10000 < tok (m0 :: tl)
  · cases hs : summarize ((m0 :: tl).take ((m0 :: tl).indexOf l0)) with
    | error e =>
      refine ⟨m0 :: tl, ?_, rfl, h⟩
      simp only [optimise_messages, List.head?_cons, if_pos htrig, hdrop, hs]
    | ok t =>
      refine ⟨systemMsg (contentStr m0.content ++ summarySep ++ t) :: l0 :: ls, ?_, ?_, by simp⟩
      · simp only [optimise_messages, List.head?_cons, if_pos htrig, hdrop, hs]
      · rw [List.getLast?_cons_cons, ← hdrop, getLast?_drop_self (m0 :: tl) h]
  · refine ⟨m0 :: tl, ?_, rfl, h⟩
    simp only [optimise_messages, List.head?_cons, if_neg htrig]

theorem update_data_fst_eq_map (dps : List DataPoint) (recs : List DataRecord) :
    (FireCrawlTools.update_data dps recs).1
      = dps.map (fun dp => recs.foldl FireCrawlTools.applyRecord1 dp) := by
  show recs.foldl FireCrawlTools.applyRecord dps = _
  induction recs generalizing dps with
  | nil => simp
  | cons r rs ih =>
    rw [List.foldl_cons, ih, FireCrawlTools.applyRecord, List.map_map]
    rfl

theorem applyRecord1_name (dp : DataPoint) (r : DataRecord) :
    (FireCrawlTools.applyRecord1 dp r).name = dp.name := by
  unfold FireCrawlTools.applyRecord1
  split <;> rfl

theorem foldl_applyRecord1_name (recs : List DataRecord) (dp : DataPoint) :
    (recs.foldl FireCrawlTools.applyRecord1 dp).name = dp.name := by
  induction recs generalizing dp with
  | nil => rfl
  | cons r rs ih => rw [List.foldl_cons, ih, applyRecord1_name]

theorem foldl_applyRecord1_eq_self (recs : List DataRecord) (dp : DataPoint)
    (h : ∀ r ∈ recs, r.name ≠ dp.name) :
    recs.foldl FireCrawlTools.applyRecord1 dp = dp := by
  induction recs with
  | nil => rfl
  | cons r rs ih =>
    have h1 : FireCrawlTools.applyRecord1 dp r = dp := by
      unfold FireCrawlTools.applyRecord1
      rw [if_neg]
      intro e
      exact h r (List.mem_cons_self r rs) e.symm
    rw [List.foldl_cons, h1, ih]
    intro r' hr'
    exact h r' (List.mem_cons_of_mem r hr')

/-! Concrete oracle environments used by the closed theorems below. -/

def env0 : RunEnv :=
  ⟨fun _ => 0, fun _ => .ok "S", fun s => .ok s, fun _ _ => .ok (some "R")⟩

def td0 : Option (List String) := some scrape_tools_names

/-! Claim theorems. -/

/-- C1. The claim states that when the underlying provider call errors on
every attempt, chat_request makes at most 3 provider calls and then returns
a failure value rather than raising. The code makes exactly 3 calls, but the
except handler crashes on the unassigned local `response`, so every attempt
re-raises and after the third one tenacity raises RetryError: the modelled
result is an exception (`.error .retryError`), never the documented `None`
return value (`.ok none`). -/
theorem chat_request_exhausted_raises :
    chat_request (fun _ => (Except.error () : Except Unit Unit))
      = (.error .retryError, 3)
    ∧ (Except.error .retryError : Except PyErr (Option Unit)) ≠ .ok none :=
  ⟨rfl, fun h => Except.noConfusion h⟩

/-- C8. The claim states that the scrape tool never raises to the
controller. JinaAiTools.scrape wraps `requests.get` in no try/except, so a
raising HTTP call propagates to the caller: with an erroring `http` oracle
the modelled scrape is an exception, not a returned result. -/
theorem jina_scrape_raises :
    JinaAiTools.scrape (fun _ => Except.error ()) [] "http://unreachable.invalid"
      = Except.error () := rfl

/-- C2. The claim states that a model turn requesting an unknown tool name
makes the run yield a null result. The code evaluates `tool_list[tool_name]`,
a dict subscript that raises KeyError for a missing key, so the run raises
(`.exn .keyError`) instead of returning None; no further chat request is
issued (the trace holds only the single request made before the abort). -/
theorem run_unknown_tool_raises :
    run env0 td0 [some ⟨none, [⟨"call1", "fetch", "\x7b\x7d"⟩], "tool_calls"⟩]
      "p" "s" false
      = (.exn .keyError, [⟨[userMsg ("s" ++ " " ++ "p")], td0, none⟩])
    ∧ RunResult.exn .keyError ≠ RunResult.ok none :=
  ⟨rfl, by decide⟩

/-- C4 counterexample. The claim quantifies over every history with at most
24 messages and a small token estimate, which includes the empty history;
there `messages[0]["content"]` raises IndexError, so compaction is not the
identity on it. -/
theorem optimise_messages_empty_cex :
    optimise_messages (fun _ => 0) (fun _ => Except.ok "S") []
      = Except.error .indexError
    ∧ (Except.error .indexError : Except PyErr (List Message))
        ≠ .ok [] :=
  ⟨rfl, fun h => Except.noConfusion h⟩

/-- C4 (amended). For every non-empty history with at most 24 messages and
a serialized token estimate of at most 10000, optimise_messages returns the
history unchanged. -/
theorem optimise_messages_identity (tok : List Message → Nat)
    (summarize : List Message → Except Unit String)
    (msgs : List Message) (hne : msgs ≠ [])
    (hlen : msgs.length ≤ 24) (htok : tok msgs ≤ 10000) :
    optimise_messages tok summarize msgs = .ok msgs := by
  obtain ⟨m0, tl, rfl⟩ := List.exists_cons_of_ne_nil hne
  have htrig : ¬ (24 < (m0 :: tl).length ∨ 10000 < tok (m0 :: tl)) := by
    push_neg
    exact ⟨hlen, htok⟩
  simp only [optimise_messages, List.head?_cons, if_neg htrig]

/-- C4 witness. -/
theorem optimise_messages_identity_witness :
    optimise_messages (fun _ => 0) (fun _ => Except.ok "S") [userMsg "u"]
      = .ok [userMsg "u"] :=
  optimise_messages_identity (fun _ => 0) (fun _ => Except.ok "S") [userMsg "u"]
    (by decide) (by decide) (by decide)

/-- C6. For every non-empty history on which compaction is triggered (more
than 24 messages or token estimate above 10000) but the summarization
request fails, optimise_messages returns the original history unchanged and
does not raise. -/
theorem optimise_messages_summary_failure (tok : List Message → Nat)
    (summarize : List Message → Except Unit String)
    (msgs : List Message) (hne : msgs ≠ [])
    (htrig : 24 < msgs.length ∨ 10000 < tok msgs)
    (hfail : ∀ l, summarize l = Except.error ()) :
    optimise_messages tok summarize msgs = .ok msgs := by
  obtain ⟨m0, tl, rfl⟩ := List.exists_cons_of_ne_nil hne
  obtain ⟨l0, ls, hdrop⟩ :=
    List.exists_cons_of_ne_nil (drop_ne_nil_of_ne_nil (m0 :: tl) hne)
  simp only [optimise_messages, List.head?_cons, if_pos htrig, hdrop, hfail]

/-- C6 witness. -/
theorem optimise_messages_summary_failure_witness :
    optimise_messages (fun _ => 0) (fun _ => Except.error ())
        (List.replicate 25 (userMsg "u"))
      = .ok (List.replicate 25 (userMsg "u")) :=
  optimise_messages_summary_failure (fun _ => 0) (fun _ => Except.error ())
    (List.replicate 25 (userMsg "u")) (by decide) (Or.inl (by decide))
    (fun _ => rfl)

/-- C5. For every history of length at least 13 exceeding a compaction
trigger (more than 24 messages or token estimate above 10000) whose
summarization request succeeds, the compacted history has exactly 13
messages: one system message followed by the 12 most-recent original
messages verbatim, and the system message text contains the original first
message text as a substring. -/
theorem optimise_messages_shape (tok : List Message → Nat)
    (summarize : List Message → Except Unit String)
    (msgs : List Message) (h13 : 13 ≤ msgs.length)
    (htrig : 24 < msgs.length ∨ 10000 < tok msgs)
    (hsum : ∀ l, ∃ t, summarize l = Except.ok t) :
    ∃ m0 t res, msgs.head? = some m0
      ∧ optimise_messages tok summarize msgs = .ok res
      ∧ res.length = 13
      ∧ res.tail = msgs.drop (msgs.length - 12)
      ∧ res.head? = some (systemMsg (contentStr m0.content ++ summarySep ++ t))
      ∧ ∃ a b, contentStr m0.content ++ summarySep ++ t
          = a ++ contentStr m0.content ++ b := by
  have hne : msgs ≠ [] := by
    intro he
    rw [he] at h13
    simp at h13
  obtain ⟨m0, tl, rfl⟩ := List.exists_cons_of_ne_nil hne
  obtain ⟨l0, ls, hdrop⟩ :=
    List.exists_cons_of_ne_nil (drop_ne_nil_of_ne_nil (m0 :: tl) hne)
  obtain ⟨t, ht⟩ := hsum ((m0 :: tl).take ((m0 :: tl).indexOf l0))
  refine ⟨m0, t, systemMsg (contentStr m0.content ++ summarySep ++ t) :: l0 :: ls,
    rfl, ?_, ?_, ?_, rfl, "", summarySep ++ t, ?_⟩
  · simp only [optimise_messages, List.head?_cons, if_pos htrig, hdrop, ht]
  · have hlen : (l0 :: ls).length = 12 := by
      rw [← hdrop, List.length_drop]
      omega
    simp [hlen]
  · simp only [List.tail_cons]
    exact hdrop.symm
  · simp [String.append_assoc]

/-- C5 witness. -/
theorem optimise_messages_shape_witness :
    ∃ m0 t res, (List.replicate 25 (userMsg "u")).head? = some m0
      ∧ optimise_messages (fun _ => 0) (fun _ => Except.ok "S")
          (List.replicate 25 (userMsg "u")) = .ok res
      ∧ res.length = 13
      ∧ res.tail = (List.replicate 25 (userMsg "u")).drop
          ((List.replicate 25 (userMsg "u")).length - 12)
      ∧ res.head? = some (systemMsg (contentStr m0.content ++ summarySep ++ t))
      ∧ ∃ a b, contentStr m0.content ++ summarySep ++ t
          = a ++ contentStr m0.content ++ b :=
  optimise_messages_shape (fun _ => 0) (fun _ => Except.ok "S")
    (List.replicate 25 (userMsg "u")) (by decide) (Or.inl (by decide))
    (fun l => ⟨"S", rfl⟩)

/-- C9. update_data changes no entry names (no data point is added or
removed), leaves every entry whose name matches no input record entirely
unchanged, and always returns the confirmation string, matched or not. -/
theorem update_data_frame (dps : List DataPoint) (recs : List DataRecord) :
    ((FireCrawlTools.update_data dps recs).1.map DataPoint.name
        = dps.map DataPoint.name)
    ∧ (∀ i (h : i < dps.length)
        (h2 : i < (FireCrawlTools.update_data dps recs).1.length),
        (∀ r ∈ recs, r.name ≠ (dps.get ⟨i, h⟩).name) →
        (FireCrawlTools.update_data dps recs).1.get ⟨i, h2⟩ = dps.get ⟨i, h⟩)
    ∧ (FireCrawlTools.update_data dps recs).2
        = "updated data: " ++ pyStrRecords recs := by
  refine ⟨?_, ?_, rfl⟩
  · rw [update_data_fst_eq_map, List.map_map]
    apply List.map_congr_left
    intro dp _
    exact foldl_applyRecord1_name recs dp
  · intro i h h2 hnomatch
    have := update_data_fst_eq_map dps recs
    rw [List.get_of_eq this ⟨i, h2⟩, List.get_map]
    exact foldl_applyRecord1_eq_self recs _ hnomatch

/-- C9 witness. -/
theorem update_data_frame_witness :
    ((FireCrawlTools.update_data [⟨"a", none, none⟩, ⟨"b", some "v", some "r"⟩]
        [⟨"a", "x", "u"⟩]).1.map DataPoint.name = ["a", "b"])
    ∧ ((FireCrawlTools.update_data [⟨"a", none, none⟩, ⟨"b", some "v", some "r"⟩]
        [⟨"a", "x", "u"⟩]).1.get ⟨1, by decide⟩ = ⟨"b", some "v", some "r"⟩)
    ∧ ((FireCrawlTools.update_data [⟨"a", none, none⟩, ⟨"b", some "v", some "r"⟩]
        [⟨"a", "x", "u"⟩]).2
        = "updated data: " ++ pyStrRecords [⟨"a", "x", "u"⟩]) := by
  have h := update_data_frame [⟨"a", none, none⟩, ⟨"b", some "v", some "r"⟩]
    [⟨"a", "x", "u"⟩]
  exact ⟨h.1.trans (by decide), (h.2.1 1 (by decide) (by decide) (by decide)).trans
    (by decide), h.2.2⟩

/-- C10. update_data applies a record to a matching data point regardless of
whether that point was already found: an entry with a set value whose name
matches the record gets its value and reference overwritten with the value
and reference of the record. -/
theorem update_data_overwrites_found (dps : List DataPoint) (r : DataRecord)
    (i : Nat) (h : i < dps.length)
    (h2 : i < (FireCrawlTools.update_data dps [r]).1.length)
    (hname : (dps.get ⟨i, h⟩).name = r.name)
    (_hfound : (dps.get ⟨i, h⟩).value.isSome) :
    (FireCrawlTools.update_data dps [r]).1.get ⟨i, h2⟩
      = ⟨(dps.get ⟨i, h⟩).name, some r.value, some r.reference⟩ := by
  have heq := update_data_fst_eq_map dps [r]
  rw [List.get_of_eq heq ⟨i, h2⟩, List.get_map]
  show FireCrawlTools.applyRecord1 (dps.get ⟨i, h⟩) r = _
  unfold FireCrawlTools.applyRecord1
  rw [if_pos hname]

/-- C10 witness. -/
theorem update_data_overwrites_found_witness :
    (FireCrawlTools.update_data [⟨"a", some "old", some "oldref"⟩]
        [⟨"a", "new", "newref"⟩]).1.get ⟨0, by decide⟩
      = ⟨"a", some "new", some "newref"⟩ :=
  (update_data_overwrites_found [⟨"a", some "old", some "oldref"⟩]
    ⟨"a", "new", "newref"⟩ 0 (by decide) (by decide) (by decide)
    (by decide)).trans (by decide)

/-- C3 counterexample. With the loop seeded without plan mode and the first
chat request failing, the run ends via a ChatClient failure yet returns the
content of the seed user message ("s p"), not null as the claim states:
after `state = "finished"` the code falls through to
`return messages[-1]["content"]`. -/
theorem run_chat_failure_value_cex :
    (run env0 td0 [none] "p" "s" false).1
      = RunResult.ok (some ("s" ++ " " ++ "p"))
    ∧ RunResult.ok (some ("s" ++ " " ++ "p")) ≠ RunResult.ok none :=
  ⟨rfl, by decide⟩

/-- C3 (amended). Termination values of the conversation loop: a failing
preliminary plan request returns null; an in-loop ChatClient failure ends the
loop and returns the content of the last message of the current history (not
null in general); a response with stop finish reason returns the content of
that final assistant message; a model turn requesting a tool name outside the
dispatch table raises KeyError instead of returning a value. -/
theorem run_termination_value (env : RunEnv) (td : Option (List String)) :
    (∀ p s rest, run env td (none :: rest) p s true
      = (.ok none, [⟨[userMsg (s ++ " " ++ p ++ planSuffix)], td, none⟩]))
    ∧ (∀ msgs rest m, msgs.getLast? = some m →
        runAux env td (none :: rest) msgs = (.ok m.content, [⟨msgs, td, none⟩]))
    ∧ (∀ msgs rest c, msgs ≠ [] → c.finish_reason = "stop" →
        (runAux env td (some c :: rest) msgs).1 = .ok c.content)
    ∧ (∀ msgs rest c tc more a, c.finish_reason = "tool_calls" →
        c.tool_calls = tc :: more → env.parse tc.arguments = .ok a →
        tc.fname ∉ get_tools_list →
        (runAux env td (some c :: rest) msgs).1 = .exn .keyError) := by
  refine ⟨fun p s rest => rfl, ?_, ?_, ?_⟩
  · intro msgs rest m hm
    simp [runAux, hm]
  · intro msgs rest c hne hc
    have hnotool : ¬ (c.finish_reason = "tool_calls") := by
      rw [hc]
      decide
    obtain ⟨msgs', hopt, hlast, hne'⟩ :=
      optimise_messages_getLast env.tok env.summarize
        (msgs ++ [assistantMsg c.content c.tool_calls]) (by simp)
    have hlast' : msgs'.getLast? = some (assistantMsg c.content c.tool_calls) := by
      rw [hlast, List.getLast?_append_of_ne_nil _ (by simp)]
      rfl
    simp only [runAux, if_neg hnotool, hopt, if_pos hc, hlast']
    rfl
  · intro msgs rest c tc more a hc hcalls hparse hmem
    have hmem' : ¬ (tc.fname ∈ get_tools_list) := hmem
    simp [runAux, if_pos hc, hcalls, processToolCalls, hparse, hmem']

/-- C3 witness. -/
theorem run_termination_value_witness :
    (run env0 td0 [none] "p" "s" true
      = (.ok none, [⟨[userMsg ("s" ++ " " ++ "p" ++ planSuffix)], td0, none⟩]))
    ∧ (runAux env0 td0 [none] [userMsg "u"]
      = (.ok (some "u"), [⟨[userMsg "u"], td0, none⟩]))
    ∧ ((runAux env0 td0 [some ⟨some "done", [], "stop"⟩] [userMsg "u"]).1
      = .ok (some "done"))
    ∧ ((runAux env0 td0 [some ⟨none, [⟨"c1", "fetch", "\x7b\x7d"⟩], "tool_calls"⟩]
        [userMsg "u"]).1 = .exn .keyError) := by
  have h := run_termination_value env0 td0
  exact ⟨h.1 "p" "s" [], h.2.1 [userMsg "u"] [] (userMsg "u") rfl,
    h.2.2.1 [userMsg "u"] [] ⟨some "done", [], "stop"⟩ (by decide) rfl,
    h.2.2.2 [userMsg "u"] [] ⟨none, [⟨"c1", "fetch", "\x7b\x7d"⟩], "tool_calls"⟩
      ⟨"c1", "fetch", "\x7b\x7d"⟩ [] "\x7b\x7d" rfl rfl rfl (by decide)⟩

/-- C7 counterexample. The claim states the preliminary plan request is
issued with no tool access; the code passes the same `tool_definitions` as
the main loop, here the scrape tool set, so the first issued request carries
those declarations and not an absent tool list. -/
theorem run_plan_tools_cex :
    ((run env0 (some scrape_tools_names)
        [some ⟨some "the plan", [], "stop"⟩, some ⟨some "done", [], "stop"⟩]
        "p" "s" true).2.map ChatReq.tool_definitions)
      = [some scrape_tools_names, some scrape_tools_names]
    ∧ some scrape_tools_names ≠ (none : Option (List String)) :=
  ⟨rfl, by decide⟩

/-- C7 (amended). In plan mode, exactly one preliminary chat request is
issued before the loop, on the single user message carrying instruction,
prompt and the plan suffix, with the same tool definitions as the main loop
and no forced tool choice; the loop then starts from the two-message history
[user: instruction+prompt, assistant: plan text]. Without plan mode the loop
starts directly from [user: instruction+prompt]. -/
theorem run_seeding (env : RunEnv) (td : Option (List String)) (p s : String)
    (c : Choice) (rest script : List (Option Choice)) :
    ((run env td (some c :: rest) p s true).2
        = ⟨[userMsg (s ++ " " ++ p ++ planSuffix)], td, none⟩
            :: (runAux env td rest
                [userMsg (s ++ " " ++ p), ⟨"assistant", c.content, [], none, none⟩]).2)
    ∧ ((run env td (some c :: rest) p s true).1
        = (runAux env td rest
            [userMsg (s ++ " " ++ p), ⟨"assistant", c.content, [], none, none⟩]).1)
    ∧ (run env td script p s false
        = runAux env td script [userMsg (s ++ " " ++ p)]) :=
  ⟨rfl, rfl, rfl⟩

end UniversalScraper
